import Mathlib

/-!
Verification of the reconciliation engine of the argocd operator repository
(controllers/argocd).  The Go source is shallowly embedded: each reconcile
function becomes a pure Lean function from its inputs (the desired object it
builds, the outcome of each cluster API call it makes, the relevant spec
fields of the Instance) to the Go error result together with the list of
writes it issued against the cluster.  Builder helpers that live outside the
embedded files (argoutil, networking, monitoring, argocdcommon) are
represented by parameters or by definitions whose doc comments say they are
modelled from the specification.
-/

set_option linter.unusedVariables false

/-- Go `error` values: either a base error or an error produced by
wrapping another error with a context message (`fmt.Errorf` with `%w`,
`errors.Wrapf`). -/
inductive Err where
  | base (msg : String)
  | wrap (msg : String) (cause : Err)
deriving DecidableEq, Repr

/-- The subset of `metav1.ObjectMeta` the embedded reconcilers read or
write: identity, labels, and whether a controller owner reference to the
Instance has been set (`controllerutil.SetControllerReference`). -/
structure ObjectMeta where
  name : String
  nspace : String
  labels : List (String × String)
  ownerRef : Bool
deriving DecidableEq, Repr

/-- `corev1.ServicePort` fields set by the embedded service reconcilers.
`targetPort` holds the string form of the `intstr` value. -/
structure ServicePort where
  name : String
  port : Int
  protocol : String
  targetPort : String
deriving DecidableEq, Repr

/-- The subset of `corev1.ServiceSpec` compared and written by the embedded
service reconcilers. -/
structure KServiceSpec where
  selector : List (String × String)
  ports : List ServicePort
  publishNotReadyAddresses : Bool
deriving DecidableEq, Repr

/-- A `corev1.Service` as seen by the embedded reconcilers. -/
structure KService where
  meta : ObjectMeta
  spec : KServiceSpec
deriving DecidableEq, Repr

/-- Outcome of fetching an object by (kind, namespace, name): found with the
cluster's copy, a not-found error, or any other API error. -/
inductive Lookup (α : Type) where
  | found (obj : α)
  | notFound
  | apiError (e : Err)
deriving DecidableEq, Repr

/-- A write issued against the cluster API. -/
inductive WriteOp (α : Type) where
  | create (obj : α)
  | update (obj : α)
  | delete (obj : α)
deriving DecidableEq, Repr

/-- `controllerutil.SetControllerReference` on an object's metadata: on
success the owner back-reference is set; on failure the metadata is left
unchanged (the outcome of the call is a parameter). -/
def setOwnerRef (m : ObjectMeta) (outcome : Option Err) : ObjectMeta :=
  match outcome with
  | none => { m with ownerRef := true }
  | some _ => m

/-- Modelled from the spec: `argocdcommon.UpdateIfChanged` (its package is
not under src/).  Per spec section 4.2, one declared field pair is compared;
if the values differ the desired value is copied into the existing object
and the changed flag is set.  Represented functionally: returns the
(possibly updated) existing value and the new changed flag. -/
def UpdateIfChanged {α : Type} [DecidableEq α] (existing desired : α) (changed : Bool) :
    α × Bool :=
  if existing = desired then (existing, changed) else (desired, true)

/-- The rollouts spec fields read by the embedded rollouts code
(`cr.Spec.Rollouts`, a pointer: `Option`). -/
structure RolloutsSpec where
  image : String
  version : String
  env : List (String × String)
  extraCommandArgs : List String
deriving DecidableEq, Repr

/-- Container resource requirements (`corev1.ResourceRequirements`). -/
structure ResourceRequirements where
  limits : List (String × String)
  requests : List (String × String)
deriving DecidableEq, Repr

/-- The zero value `corev1.ResourceRequirements{}`. -/
def ResourceRequirements.empty : ResourceRequirements :=
  { limits := [], requests := [] }

/-- The ApplicationSet spec fields read by the embedded code
(`cr.Spec.ApplicationSet`, a pointer: `Option`). -/
structure ApplicationSetSpec where
  resources : Option ResourceRequirements
deriving DecidableEq, Repr

/-- The Instance spec fields the embedded reconcilers branch on. -/
structure ArgoCDSpec where
  rollouts : Option RolloutsSpec
  applicationSet : Option ApplicationSetSpec
  notificationsEnabled : Bool
deriving DecidableEq, Repr

/-- The ArgoCD Instance (primary resource) as read by the embedded code:
identity, deletion timestamp presence, finalizer presence, and spec. -/
structure ArgoCDCR where
  name : String
  nspace : String
  deletionTimestampSet : Bool
  finalizerPresent : Bool
  spec : ArgoCDSpec
deriving DecidableEq, Repr

/-- The subset of a Prometheus `ServiceMonitorSpec` compared by the
repo-server service monitor reconciler. -/
structure ServiceMonitorSpec where
  selectorMatchLabels : List (String × String)
  endpointPorts : List String
deriving DecidableEq, Repr

/-- A Prometheus `ServiceMonitor` as seen by the embedded reconciler. -/
structure ServiceMonitor where
  meta : ObjectMeta
  spec : ServiceMonitorSpec
deriving DecidableEq, Repr

/-- The dynamic value passed to a hook as Go `interface\x7b\x7d`. -/
inductive GoVal where
  | service (s : KService)
  | serviceMonitor (m : ServiceMonitor)
deriving DecidableEq, Repr

/-- A registered reconciler hook (`type Hook func(*v1beta1.ArgoCD,
interface\x7b\x7d, string) error`).  In Go a hook may also mutate the object
in place; no embedded claim depends on the mutation, only on the returned
error, so only the error is modelled. -/
def Hook : Type := ArgoCDCR → GoVal → String → Option Err

/-- Shallow embedding of `applyReconcilerHook`
(src/controllers/argocd/hooks.go): iterate the registered hooks in
registration order (list order); the first hook returning an error stops the
loop and that error is returned unchanged.  In addition to the Go return
value the embedding also returns the number of hooks that were invoked, an
instrumentation of the loop used to state that no later hook runs. -/
def applyReconcilerHook (cr : ArgoCDCR) (i : GoVal) (hint : String) :
    List Hook → Option Err × Nat
  | [] => (none, 0)
  | h :: rest =>
    match h cr i hint with
    | some e => (some e, 1)
    | none =>
      let r := applyReconcilerHook cr i hint rest
      (r.1, r.2 + 1)

/-- Modelled from the spec: `monitoring.RequestServiceMonitor`
(pkg/monitoring, not under src/) builds the ServiceMonitor from the request
and applies the request's mutations; for the repo-server monitor the sole
mutation is `mutation.ApplyReconcilerMutation`, which passes the candidate
object through the hook registry (spec sections 4.2 and 4.6): the first hook
error aborts the build and is returned unchanged alongside the object. -/
def RequestServiceMonitor (hooks : List Hook) (cr : ArgoCDCR) (sm : ServiceMonitor) :
    ServiceMonitor × Option Err :=
  (sm, (applyReconcilerHook cr (GoVal.serviceMonitor sm) "" hooks).1)

/-- Shallow embedding of `RepoServerReconciler.reconServiceMonitor`
(src/controllers/argocd/hooks.go, reposerver part), specialised to the
update function installed by `reconcileMetriscServiceMonitor`, which
compares the Labels and the Spec.  The request's built object and the
outcomes of the cluster API calls are parameters.  Returns the Go error
result and the writes issued. -/
def reconServiceMonitor (hooks : List Hook) (cr : ArgoCDCR) (req : ServiceMonitor)
    (ownerRefErr : Option Err) (lookup : Lookup ServiceMonitor)
    (createErr updateErr : Option Err) (ignoreDrift : Bool) :
    Option Err × List (WriteOp ServiceMonitor) :=
  let built := RequestServiceMonitor hooks cr req
  let desired := built.1
  match built.2 with
  | some e =>
      (some (Err.wrap ("reconcileServiceMonitor: failed to request ServiceMonitor " ++
        desired.meta.name ++ " in namespace " ++ desired.meta.nspace) e), [])
  | none =>
    -- a SetControllerReference failure is only logged (rsr.Logger.Error), not returned
    let desired := { desired with meta := setOwnerRef desired.meta ownerRefErr }
    match lookup with
    | Lookup.apiError e =>
        (some (Err.wrap ("reconcileServiceMonitor: failed to retrieve ServiceMonitor " ++
          desired.meta.name ++ " in namespace " ++ desired.meta.nspace) e), [])
    | Lookup.notFound =>
      match createErr with
      | some e =>
          (some (Err.wrap ("reconcileServiceMonitor: failed to create ServiceMonitor " ++
            desired.meta.name ++ " in namespace " ++ desired.meta.nspace) e),
           [WriteOp.create desired])
      | none => (none, [WriteOp.create desired])
    | Lookup.found existing =>
      if ignoreDrift then (none, [])
      else
        let step1 := UpdateIfChanged existing.meta.labels desired.meta.labels false
        let step2 := UpdateIfChanged existing.spec desired.spec step1.2
        let existing := { existing with
          meta := { existing.meta with labels := step1.1 }, spec := step2.1 }
        if step2.2 then
          match updateErr with
          | some e =>
              (some (Err.wrap ("reconcileServiceMonitor: failed to update ServiceMonitor " ++
                existing.meta.name) e), [WriteOp.update existing])
          | none => (none, [WriteOp.update existing])
        else (none, [])

/-- Shallow embedding of `RedisReconciler.reconcileService`
(src/controllers/argocd/hooks.go, redis part).  The desired Service built by
`networking.RequestService` from the request (builders not under src/) is a
parameter, as are the outcomes of the cluster API calls.  The compared field
pairs are the ObjectMeta pair and the Spec pair, exactly as in the source's
`fieldsToCompare`; `argocdcommon.UpdateIfChanged` is spec-modelled above. -/
def reconcileService (desired : KService) (requestErr ownerRefErr : Option Err)
    (lookup : Lookup KService) (createErr updateErr : Option Err) :
    Option Err × List (WriteOp KService) :=
  match requestErr with
  | some e => (some (Err.wrap ("failed to request service " ++ desired.meta.name) e), [])
  | none =>
    -- a SetControllerReference failure is only logged (rr.Logger.Error), not returned
    let desired := { desired with meta := setOwnerRef desired.meta ownerRefErr }
    match lookup with
    | Lookup.apiError e =>
        (some (Err.wrap ("failed to retrieve service " ++ desired.meta.name) e), [])
    | Lookup.notFound =>
      match createErr with
      | some e =>
          (some (Err.wrap ("failed to create service " ++ desired.meta.name) e),
           [WriteOp.create desired])
      | none => (none, [WriteOp.create desired])
    | Lookup.found existing =>
      let step1 := UpdateIfChanged existing.meta desired.meta false
      let step2 := UpdateIfChanged existing.spec desired.spec step1.2
      let existing := { existing with meta := step1.1, spec := step2.1 }
      if step2.2 then
        match updateErr with
        | some e =>
            (some (Err.wrap ("failed to update service " ++ existing.meta.name) e),
             [WriteOp.update existing])
        | none => (none, [WriteOp.update existing])
      else (none, [])

/-- Shallow embedding of `RedisReconciler.reconcileHAMasterService`
(src/controllers/argocd/hooks.go, redis part): the desired Service is built
and the owner reference attempted, but when the lookup finds an existing
Service the function returns immediately ("nothing to do") without any
comparison or write. -/
def reconcileHAMasterService (desired : KService) (requestErr ownerRefErr : Option Err)
    (lookup : Lookup KService) (createErr : Option Err) :
    Option Err × List (WriteOp KService) :=
  match requestErr with
  | some e => (some (Err.wrap ("failed to request service " ++ desired.meta.name) e), [])
  | none =>
    let desired := { desired with meta := setOwnerRef desired.meta ownerRefErr }
    match lookup with
    | Lookup.apiError e =>
        (some (Err.wrap ("failed to retrieve service " ++ desired.meta.name) e), [])
    | Lookup.notFound =>
      match createErr with
      | some e =>
          (some (Err.wrap ("failed to create service " ++ desired.meta.name) e),
           [WriteOp.create desired])
      | none => (none, [WriteOp.create desired])
    | Lookup.found _ => (none, [])

/-- A container of the rollouts Deployment pod spec.  Fields not read by any
claim (image, probes, ports, security context of the container) are omitted;
the claims only depend on whole-container equality and on the `resources`
field. -/
structure Container where
  name : String
  command : List String
  env : List (String × String)
  resources : ResourceRequirements
deriving DecidableEq, Repr

/-- `corev1.PodSecurityContext` as set by the rollouts deployment code. -/
structure PodSecurityContext where
  runAsNonRoot : Option Bool
deriving DecidableEq, Repr

/-- The fields of an `appsv1.Deployment` the rollouts deployment reconciler
builds, compares and copies (flattening `Spec.Template.Spec`). -/
structure KDeployment where
  labels : List (String × String)
  selector : List (String × String)
  templateLabels : List (String × String)
  containers : List Container
  serviceAccountName : String
  nodeSelector : List (String × String)
  tolerations : List String
  securityContext : Option PodSecurityContext
  ownerRef : Bool
deriving DecidableEq, Repr

/-- The dynamic values handed to `reflect.DeepEqual` by the rollouts
deployment comparison.  `reflect.DeepEqual` first compares the dynamic
types of its arguments: values of distinct dynamic types are never deeply
equal, which is why the `container` versus `containerList` case below is
`false` regardless of the payloads. -/
inductive ReflectVal where
  | container (c : Container)
  | containerList (cs : List Container)
deriving DecidableEq, Repr

/-- Shallow embedding of `reflect.DeepEqual` restricted to the dynamic types
appearing in `reconcileRolloutsDeployment`'s mixed-type comparison. -/
def deepEqual : ReflectVal → ReflectVal → Bool
  | ReflectVal.container a, ReflectVal.container b => decide (a = b)
  | ReflectVal.containerList a, ReflectVal.containerList b => decide (a = b)
  | _, _ => false

/-- Shallow embedding of the `deploymentsDifferent` expression of
`reconcileRolloutsDeployment` (src/controllers/argocd/rollouts.go lines
519 to 526).  The source's first disjunct is
`!reflect.DeepEqual(existingSpec.Containers[0], podSpec.Containers)`: it
compares the first existing `Container` against the whole desired container
slice.  `existingSpec.Containers[0]` panics in Go when the existing pod spec
has no containers, represented here by `none`. -/
def deploymentsDifferent (existing deploy : KDeployment) : Option Bool :=
  match existing.containers with
  | [] => none
  | c0 :: _ => some (
      !deepEqual (ReflectVal.container c0) (ReflectVal.containerList deploy.containers) ||
      decide (existing.serviceAccountName ≠ deploy.serviceAccountName) ||
      decide (existing.labels ≠ deploy.labels) ||
      decide (existing.templateLabels ≠ deploy.templateLabels) ||
      decide (existing.selector ≠ deploy.selector) ||
      decide (existing.nodeSelector ≠ deploy.nodeSelector) ||
      decide (existing.tolerations ≠ deploy.tolerations) ||
      decide (existing.securityContext ≠ deploy.securityContext))

/-- Shallow embedding of `ReconcileArgoCD.reconcileRolloutsDeployment`
(src/controllers/argocd/rollouts.go lines 496 to 548).  `deploy` is the
desired Deployment built deterministically from the Instance (the builder
helpers `newDeploymentWithSuffix`, `setRolloutsLabels`,
`AddSeccompProfileForOpenShift` are not under src/, so the built object is a
parameter); `existing?` is the cluster lookup result of
`argoutil.IsObjectFound`.  The outer `Option` is `none` when the Go code
panics (index out of range on an existing Deployment with no containers).
When the Deployment exists, the declared compared fields are copied into
`existing` and an Update is issued only if `deploymentsDifferent`; when
absent, the owner reference is set (a failure there is returned) and a
Create is issued. -/
def reconcileRolloutsDeployment (deploy : KDeployment) (existing? : Option KDeployment)
    (ownerRefErr createErr updateErr : Option Err) :
    Option (Option Err × List (WriteOp KDeployment)) :=
  match existing? with
  | some existing =>
    match deploymentsDifferent existing deploy with
    | none => none
    | some different =>
      if different then
        let existing := { existing with
          containers := deploy.containers
          serviceAccountName := deploy.serviceAccountName
          labels := deploy.labels
          templateLabels := deploy.templateLabels
          selector := deploy.selector
          nodeSelector := deploy.nodeSelector
          tolerations := deploy.tolerations
          securityContext := deploy.securityContext }
        match updateErr with
        | some e => some (some e, [WriteOp.update existing])
        | none => some (none, [WriteOp.update existing])
      else some (none, [])
  | none =>
    match ownerRefErr with
    | some e => some (some e, [])
    | none =>
      let deploy := { deploy with ownerRef := true }
      match createErr with
      | some e => some (some e, [WriteOp.create deploy])
      | none => some (none, [WriteOp.create deploy])

/-- `nameWithSuffix` of the argocd package is not under src/; the rollouts
Service selector value it produces is modelled as the Instance name joined
with the suffix. -/
def nameWithSuffix (suffix : String) (cr : ArgoCDCR) : String :=
  cr.name ++ "-" ++ suffix

/-- The metrics port list written onto the rollouts Service
(src/controllers/argocd/rollouts.go lines 684 to 691). -/
def rolloutsMetricsPorts : List ServicePort :=
  [{ name := "metrics", port := 8090, protocol := "TCP", targetPort := "8090" }]

/-- Shallow embedding of `ReconcileArgoCD.reconcileRolloutsService`
(src/controllers/argocd/rollouts.go lines 663 to 701).  `builtSvc` is the
Service skeleton from `newServiceWithSuffix` (builder not under src/);
`existing?` is the cluster state consulted by `argoutil.IsObjectFound` and
fetched by `argoutil.FetchObject`.  Mirrors the source exactly: when
`cr.Spec.Rollouts` is nil an existing Service is fetched and deleted, but
control then falls through to the common tail, which sets the ports and
selector, sets the owner reference (a failure there is returned) and always
issues a Create.  Returns the error result, the writes issued, and whether a
rollouts Service is present in the cluster after the call. -/
def reconcileRolloutsService (cr : ArgoCDCR) (builtSvc : KService)
    (existing? : Option KService) (fetchErr deleteErr ownerRefErr createErr : Option Err) :
    Option Err × List (WriteOp KService) × Bool :=
  let tail : KService → List (WriteOp KService) → Bool →
      Option Err × List (WriteOp KService) × Bool := fun svc writes present =>
    let svc := { svc with spec := { svc.spec with
      ports := rolloutsMetricsPorts
      selector := [("app.kubernetes.io/name", nameWithSuffix "argo-rollouts" cr)] } }
    match ownerRefErr with
    | some e => (some e, writes, present)
    | none =>
      let svc := { svc with meta := { svc.meta with ownerRef := true } }
      match createErr with
      | some e => (some e, writes ++ [WriteOp.create svc], present)
      | none => (none, writes ++ [WriteOp.create svc], true)
  match cr.spec.rollouts with
  | none =>
    match existing? with
    | some ex =>
      match fetchErr with
      | some e => (some e, [], true)
      | none =>
        match deleteErr with
        | some e => (some e, [WriteOp.delete ex], true)
        | none => tail ex [WriteOp.delete ex] false
    | none => tail builtSvc [] false
  | some _ =>
    match existing? with
    | some _ => (none, [], true)
    | none => tail builtSvc [] false

/-- A `corev1.ServiceAccount` as seen by the rollouts reconciler. -/
structure KServiceAccount where
  meta : ObjectMeta
deriving DecidableEq, Repr

/-- Shallow embedding of `ReconcileArgoCD.reconcileRolloutsServiceAccount`
(src/controllers/argocd/rollouts.go lines 84 to 111).  `builtSA` is the
object from `newServiceAccountWithName` plus `setRolloutsLabels` (builders
not under src/).  When `argoutil.FetchObject` finds the ServiceAccount the
function returns it with no write; only when absent is the owner reference
set and a Create issued. -/
def reconcileRolloutsServiceAccount (builtSA : KServiceAccount)
    (lookup : Lookup KServiceAccount) (ownerRefErr createErr : Option Err) :
    Option Err × List (WriteOp KServiceAccount) :=
  match lookup with
  | Lookup.apiError e => (some e, [])
  | Lookup.found _ => (none, [])
  | Lookup.notFound =>
    match ownerRefErr with
    | some e => (some e, [])
    | none =>
      let sa := { builtSA with meta := { builtSA.meta with ownerRef := true } }
      match createErr with
      | some e => (some e, [WriteOp.create sa])
      | none => (none, [WriteOp.create sa])

/-- A `corev1.Secret` as built by the rollouts secrets reconciler. -/
structure KSecret where
  name : String
  nspace : String
  secretType : String
deriving DecidableEq, Repr

/-- The notification secret literal built by `reconcileRolloutsSecrets`
(src/controllers/argocd/rollouts.go lines 705 to 711). -/
def rolloutsNotificationSecret (cr : ArgoCDCR) : KSecret :=
  { name := "argo-rollouts-notification-secret", nspace := cr.nspace, secretType := "Opaque" }

/-- Shallow embedding of `ReconcileArgoCD.reconcileRolloutsSecrets`
(src/controllers/argocd/rollouts.go lines 704 to 723): when
`argoutil.IsObjectFound` reports the secret present the function does
nothing; otherwise it creates the secret. -/
def reconcileRolloutsSecrets (cr : ArgoCDCR) (found : Bool) (createErr : Option Err) :
    Option Err × List (WriteOp KSecret) :=
  if found then (none, [])
  else
    match createErr with
    | some e => (some e, [WriteOp.create (rolloutsNotificationSecret cr)])
    | none => (none, [WriteOp.create (rolloutsNotificationSecret cr)])

/-- A Go runtime panic reachable from the embedded code. -/
inductive GoPanic where
  | nilPointerDereference
deriving DecidableEq, Repr

/-- Shallow embedding of `getRolloutsControllerResources`
(src/controllers/argocd/rollouts.go lines 645 to 654).  The Go code starts
from the zero requirements and evaluates `cr.Spec.ApplicationSet.Resources`
with no nil check on `cr.Spec.ApplicationSet` itself: when that pointer is
nil the selector dereferences a nil pointer (runtime panic, modelled as
`Except.error`).  Note the override is read from the ApplicationSet spec,
not from the Rollouts spec. -/
def getRolloutsControllerResources (cr : ArgoCDCR) : Except GoPanic ResourceRequirements :=
  match cr.spec.applicationSet with
  | none => Except.error GoPanic.nilPointerDereference
  | some appset =>
    match appset.resources with
    | some r => Except.ok r
    | none => Except.ok ResourceRequirements.empty

/-- Shallow embedding of `rolloutsContainer`
(src/controllers/argocd/rollouts.go lines 550 to 612) restricted to the
fields any claim reads.  `cr.Spec.Rollouts.Env` dereferences the Rollouts
pointer (panic when nil) and the `Resources` field comes from
`getRolloutsControllerResources`; a panic raised there propagates.  The
`argoutil.EnvMerge` with the proxy environment and the image computation are
not read by any claim and are omitted (env is the spec's env list). -/
def rolloutsContainer (cr : ArgoCDCR) : Except GoPanic Container :=
  match cr.spec.rollouts with
  | none => Except.error GoPanic.nilPointerDereference
  | some rospec =>
    match getRolloutsControllerResources cr with
    | Except.error p => Except.error p
    | Except.ok res =>
      Except.ok
        { name := "argo-rollouts"
          command := rospec.extraCommandArgs
          env := rospec.env
          resources := res }


/-- The stages of the resource pipeline `ReconcileArgoCD.reconcileResources`
(src/controllers/argocd/rollouts.go lines 768 to 896), in source order. -/
inductive StageName where
  | sso
  | status
  | roles
  | roleBindings
  | serviceAccounts
  | certificateAuthority
  | secrets
  | configMaps
  | services
  | deployments
  | statefulSets
  | autoscalers
  | ingresses
  | routes
  | prometheus
  | prometheusRule
  | metricsServiceMonitor
  | repoServerServiceMonitor
  | serverMetricsServiceMonitor
  | applicationSet
  | notificationsCtrl
  | repoServerTLSSecret
  | redisTLSSecret
deriving DecidableEq, Repr

/-- The outcome (Go error result) of each pipeline stage, supplied as
environment to the embedded pipeline. -/
structure StageOutcomes where
  sso : Option Err
  status : Option Err
  roles : Option Err
  roleBindings : Option Err
  serviceAccounts : Option Err
  certificateAuthority : Option Err
  secrets : Option Err
  configMaps : Option Err
  services : Option Err
  deployments : Option Err
  statefulSets : Option Err
  autoscalers : Option Err
  ingresses : Option Err
  routes : Option Err
  prometheus : Option Err
  prometheusRule : Option Err
  metricsServiceMonitor : Option Err
  repoServerServiceMonitor : Option Err
  serverMetricsServiceMonitor : Option Err
  applicationSet : Option Err
  notificationsCtrl : Option Err
  repoServerTLSSecret : Option Err
  redisTLSSecret : Option Err
deriving DecidableEq, Repr

/-- The cached cluster feature availability flags consulted by the pipeline
(`IsRouteAPIAvailable`, `IsPrometheusAPIAvailable`). -/
structure ClusterFlags where
  routeAPIAvailable : Bool
  prometheusAPIAvailable : Bool
deriving DecidableEq, Repr

/-- Run the fatal stages of the pipeline in order: each stage is executed
(appended to the trace); a stage returning an error stops the run and that
error is the result, mirroring the source's `if err := r.reconcileX(cr);
err != nil` blocks that `return err`. -/
def runPipeline : List (StageName × Option Err) → Option Err × List StageName
  | [] => (none, [])
  | (s, outcome) :: rest =>
    match outcome with
    | some e => (some e, [s])
    | none =>
      let r := runPipeline rest
      (r.1, s :: r.2)

/-- The fatal stages `reconcileResources` runs after SSO and status, in
source order, with their gates: the routes stage only when the route API is
available, the five prometheus stages only when the prometheus API is
available, the ApplicationSet stage only when `cr.Spec.ApplicationSet` is
not nil, the notifications stage only when
`cr.Spec.Notifications.Enabled`. -/
def fatalPlan (cr : ArgoCDCR) (env : ClusterFlags) (o : StageOutcomes) :
    List (StageName × Option Err) :=
  [(StageName.roles, o.roles), (StageName.roleBindings, o.roleBindings),
   (StageName.serviceAccounts, o.serviceAccounts),
   (StageName.certificateAuthority, o.certificateAuthority),
   (StageName.secrets, o.secrets), (StageName.configMaps, o.configMaps),
   (StageName.services, o.services), (StageName.deployments, o.deployments),
   (StageName.statefulSets, o.statefulSets), (StageName.autoscalers, o.autoscalers),
   (StageName.ingresses, o.ingresses)]
  ++ (if env.routeAPIAvailable then [(StageName.routes, o.routes)] else [])
  ++ (if env.prometheusAPIAvailable then
       [(StageName.prometheus, o.prometheus),
        (StageName.prometheusRule, o.prometheusRule),
        (StageName.metricsServiceMonitor, o.metricsServiceMonitor),
        (StageName.repoServerServiceMonitor, o.repoServerServiceMonitor),
        (StageName.serverMetricsServiceMonitor, o.serverMetricsServiceMonitor)] else [])
  ++ (if cr.spec.applicationSet.isSome then [(StageName.applicationSet, o.applicationSet)] else [])
  ++ (if cr.spec.notificationsEnabled then [(StageName.notificationsCtrl, o.notificationsCtrl)] else [])
  ++ [(StageName.repoServerTLSSecret, o.repoServerTLSSecret),
      (StageName.redisTLSSecret, o.redisTLSSecret)]

/-- Shallow embedding of `ReconcileArgoCD.reconcileResources`
(src/controllers/argocd/rollouts.go lines 768 to 896) as a trace of executed
stages plus the returned error.  The SSO and status stages always run first
and their error is only logged (`log.Info(err.Error())`) before control
continues, so the result does not depend on their outcomes; every later
stage returns its error to the caller, stopping the pipeline (`runPipeline`
over `fatalPlan`). -/
def reconcileResources (cr : ArgoCDCR) (env : ClusterFlags) (o : StageOutcomes) :
    Option Err × List StageName :=
  let r := runPipeline (fatalPlan cr env o)
  (r.1, [StageName.sso, StageName.status] ++ r.2)

/-- The stage trace of a full pipeline run in which no fatal stage fails. -/
def fullPipelineTrace (cr : ArgoCDCR) (env : ClusterFlags) : List StageName :=
  [StageName.sso, StageName.status, StageName.roles, StageName.roleBindings,
   StageName.serviceAccounts, StageName.certificateAuthority, StageName.secrets,
   StageName.configMaps, StageName.services, StageName.deployments,
   StageName.statefulSets, StageName.autoscalers, StageName.ingresses]
  ++ (if env.routeAPIAvailable then [StageName.routes] else [])
  ++ (if env.prometheusAPIAvailable then
       [StageName.prometheus, StageName.prometheusRule, StageName.metricsServiceMonitor,
        StageName.repoServerServiceMonitor, StageName.serverMetricsServiceMonitor] else [])
  ++ (if cr.spec.applicationSet.isSome then [StageName.applicationSet] else [])
  ++ (if cr.spec.notificationsEnabled then [StageName.notificationsCtrl] else [])
  ++ [StageName.repoServerTLSSecret, StageName.redisTLSSecret]

/-- No stage whose error is returned to the caller fails (the SSO and status
outcomes are unconstrained). -/
def StageOutcomes.noFatalErr (o : StageOutcomes) : Prop :=
  o.roles = none ∧ o.roleBindings = none ∧ o.serviceAccounts = none ∧
  o.certificateAuthority = none ∧ o.secrets = none ∧ o.configMaps = none ∧
  o.services = none ∧ o.deployments = none ∧ o.statefulSets = none ∧
  o.autoscalers = none ∧ o.ingresses = none ∧ o.routes = none ∧
  o.prometheus = none ∧ o.prometheusRule = none ∧ o.metricsServiceMonitor = none ∧
  o.repoServerServiceMonitor = none ∧ o.serverMetricsServiceMonitor = none ∧
  o.applicationSet = none ∧ o.notificationsCtrl = none ∧
  o.repoServerTLSSecret = none ∧ o.redisTLSSecret = none

/-- The steps of one `ReconcileArgoCD.Reconcile` invocation
(src/controllers/argocd/argocd_controller.go lines 77 to 151). -/
inductive Step where
  | getInstance
  | deleteClusterResources
  | removeManagedByLabelFromNamespaces
  | removeUnmanagedSourceNamespaceResources
  | removeDeletionFinalizer
  | clearDeprecationTracker
  | addDeletionFinalizer
  | refetchInstance
  | setManagedNamespaces
  | setManagedSourceNamespaces
  | pipelineStage (s : StageName)
deriving DecidableEq, Repr

/-- Outcome of the initial fetch of the Instance. -/
inductive GetOutcome where
  | ok
  | notFound
  | apiError (e : Err)
deriving DecidableEq, Repr

/-- The outcomes of every operation `Reconcile` performs, supplied as
environment to the embedding. -/
structure ReconcileOps where
  getOutcome : GetOutcome
  deleteClusterResourcesErr : Option Err
  removeManagedByLabelOnDeletionSetting : Bool
  removeManagedByLabelErr : Option Err
  removeUnmanagedSourceNsErr : Option Err
  removeFinalizerErr : Option Err
  addFinalizerErr : Option Err
  refetchErr : Option Err
  setManagedNamespacesErr : Option Err
  setManagedSourceNamespacesErr : Option Err
  env : ClusterFlags
  stages : StageOutcomes
deriving DecidableEq, Repr

/-- Result of one `Reconcile` invocation: the Go error result, the executed
steps in order, whether the deletion finalizer is present on the Instance
afterwards, and the process-local `DeprecationEventEmissionTracker` keys
afterwards. -/
structure ReconcileOutcome where
  result : Option Err
  steps : List Step
  finalizerPresent : Bool
  tracker : List String
deriving DecidableEq, Repr

/-- The teardown tail after the optional managed-by label removal: delete
RBAC from managed source namespaces, remove the finalizer, then clear the
Instance namespace from the deprecation tracker if present. -/
def teardownTail (cr : ArgoCDCR) (ops : ReconcileOps) (tracker : List String)
    (steps : List Step) : ReconcileOutcome :=
  let steps := steps ++ [Step.removeUnmanagedSourceNamespaceResources]
  match ops.removeUnmanagedSourceNsErr with
  | some e =>
      ⟨some (Err.wrap "failed to remove resources from sourceNamespaces" e),
       steps, true, tracker⟩
  | none =>
    let steps := steps ++ [Step.removeDeletionFinalizer]
    match ops.removeFinalizerErr with
    | some e => ⟨some e, steps, true, tracker⟩
    | none =>
      if cr.nspace ∈ tracker then
        ⟨none, steps ++ [Step.clearDeprecationTracker], false,
         tracker.filter (fun x => x ≠ cr.nspace)⟩
      else
        ⟨none, steps, false, tracker⟩

/-- The teardown branch of `Reconcile` (deletion timestamp set, finalizer
present): delete cluster-scoped resources, optionally strip the managed-by
label from namespaces, then the teardown tail.  Each failure is returned
immediately (wrapped with `fmt.Errorf` and `%w`, except the finalizer
removal whose error is returned as is), leaving the finalizer present. -/
def teardown (cr : ArgoCDCR) (ops : ReconcileOps) (tracker : List String) :
    ReconcileOutcome :=
  let steps := [Step.getInstance, Step.deleteClusterResources]
  match ops.deleteClusterResourcesErr with
  | some e => ⟨some (Err.wrap "failed to delete ClusterResources" e), steps, true, tracker⟩
  | none =>
    if ops.removeManagedByLabelOnDeletionSetting then
      let steps := steps ++ [Step.removeManagedByLabelFromNamespaces]
      match ops.removeManagedByLabelErr with
      | some e =>
          ⟨some (Err.wrap ("failed to remove label from namespace[" ++ cr.nspace ++ "]") e),
           steps, true, tracker⟩
      | none => teardownTail cr ops tracker steps
    else teardownTail cr ops tracker steps

/-- The non-deletion tail of `Reconcile`: re-fetch the Instance, recompute
the managed namespace sets, then run the resource pipeline; each failure is
returned as is. -/
def normalTail (cr : ArgoCDCR) (ops : ReconcileOps) (tracker : List String)
    (steps : List Step) : ReconcileOutcome :=
  let steps := steps ++ [Step.refetchInstance]
  match ops.refetchErr with
  | some e => ⟨some e, steps, true, tracker⟩
  | none =>
    let steps := steps ++ [Step.setManagedNamespaces]
    match ops.setManagedNamespacesErr with
    | some e => ⟨some e, steps, true, tracker⟩
    | none =>
      let steps := steps ++ [Step.setManagedSourceNamespaces]
      match ops.setManagedSourceNamespacesErr with
      | some e => ⟨some e, steps, true, tracker⟩
      | none =>
        let pr := reconcileResources cr ops.env ops.stages
        ⟨pr.1, steps ++ pr.2.map Step.pipelineStage, true, tracker⟩

/-- Shallow embedding of `ReconcileArgoCD.Reconcile`
(src/controllers/argocd/argocd_controller.go lines 77 to 151).  Not-found on
the initial fetch is success with no further work; a deletion timestamp with
the finalizer present runs teardown and returns without the pipeline; a
deletion timestamp without the finalizer returns success untouched;
otherwise the finalizer is added when absent and the normal tail runs. -/
def Reconcile (cr : ArgoCDCR) (ops : ReconcileOps) (tracker : List String) :
    ReconcileOutcome :=
  match ops.getOutcome with
  | GetOutcome.notFound => ⟨none, [Step.getInstance], cr.finalizerPresent, tracker⟩
  | GetOutcome.apiError e => ⟨some e, [Step.getInstance], cr.finalizerPresent, tracker⟩
  | GetOutcome.ok =>
    if cr.deletionTimestampSet then
      if cr.finalizerPresent then teardown cr ops tracker
      else ⟨none, [Step.getInstance], cr.finalizerPresent, tracker⟩
    else
      if cr.finalizerPresent then
        normalTail cr ops tracker [Step.getInstance]
      else
        let steps := [Step.getInstance, Step.addDeletionFinalizer]
        match ops.addFinalizerErr with
        | some e => ⟨some e, steps, false, tracker⟩
        | none => normalTail cr ops tracker steps

/-- The mutually exclusive SSO providers of the provider state machine. -/
structure SSORequest where
  requestsProviderA : Bool
  requestsProviderB : Bool
deriving DecidableEq, Repr

/-- Writes against provider-exclusive resource sets. -/
inductive SSOWrite where
  | createA
  | deleteA
  | createB
  | deleteB
deriving DecidableEq, Repr

/-- Which providers currently have resources in the cluster. -/
structure SSOState where
  providerAResourcesPresent : Bool
  providerBResourcesPresent : Bool
deriving DecidableEq, Repr

/-- Modelled from the spec: the body of `SSOReconciler.Reconcile`
(src/controllers/argocd/sso/sso.go) is an empty placeholder ("controller
logic goes here"), so the provider state machine is modelled from spec
sections 3 (ProviderState) and 4.3: if the spec simultaneously requests both
providers the call surfaces a fatal validation error with state and
resources left untouched; a valid single-provider request first deletes the
other provider's exclusive resources when present, then ensures the
requested provider's; requesting none deletes whichever provider's resources
currently exist with no creation. -/
def ssoReconcile (req : SSORequest) (st : SSOState) :
    Option Err × List SSOWrite × SSOState :=
  if req.requestsProviderA && req.requestsProviderB then
    (some (Err.base "multiple SSO providers configured, only one is permitted"), [], st)
  else if req.requestsProviderA then
    let cleanup := if st.providerBResourcesPresent then [SSOWrite.deleteB] else []
    (none, cleanup ++ [SSOWrite.createA],
     { providerAResourcesPresent := true, providerBResourcesPresent := false })
  else if req.requestsProviderB then
    let cleanup := if st.providerAResourcesPresent then [SSOWrite.deleteA] else []
    (none, cleanup ++ [SSOWrite.createB],
     { providerAResourcesPresent := false, providerBResourcesPresent := true })
  else
    let cleanup :=
      (if st.providerAResourcesPresent then [SSOWrite.deleteA] else []) ++
      (if st.providerBResourcesPresent then [SSOWrite.deleteB] else [])
    (none, cleanup, { providerAResourcesPresent := false, providerBResourcesPresent := false })

/-- Shallow embedding of Go `errors.Is` on the embedded error values: an
error "is" a target when it equals the target or when the target appears in
its chain of wrapped causes (`fmt.Errorf` with `%w` and `errors.Wrapf` both
preserve the cause for unwrapping). -/
def errorsIs : Err → Err → Bool
  | e@(Err.base _), target => decide (e = target)
  | e@(Err.wrap _ cause), target => decide (e = target) || errorsIs cause target

/-- The rollouts Service value produced by the unconditional tail of
`reconcileRolloutsService`: the ports and selector are written onto the
object in hand and the controller owner reference is set. -/
def rolloutsServiceFinal (cr : ArgoCDCR) (svc : KService) : KService :=
  { svc with
    meta := { svc.meta with ownerRef := true }
    spec := { svc.spec with
      ports := rolloutsMetricsPorts
      selector := [("app.kubernetes.io/name", nameWithSuffix "argo-rollouts" cr)] } }

/-- Concrete cluster flags used by the witnesses: both optional API groups
available. -/
def sampleEnv : ClusterFlags :=
  { routeAPIAvailable := true, prometheusAPIAvailable := true }

/-- A concrete Instance used by the witnesses: not being deleted, finalizer
present, ApplicationSet and notifications enabled, rollouts absent. -/
def sampleCR : ArgoCDCR :=
  { name := "argocd", nspace := "argocd", deletionTimestampSet := false
    finalizerPresent := true
    spec := { rollouts := none, applicationSet := some { resources := none },
              notificationsEnabled := true } }

/-- Concrete stage outcomes in which the SSO and the status stages fail and
every fatal stage succeeds. -/
def sampleOutcomes : StageOutcomes :=
  { sso := some (Err.base "illegal SSO configuration")
    status := some (Err.base "status update failed")
    roles := none, roleBindings := none, serviceAccounts := none
    certificateAuthority := none, secrets := none, configMaps := none
    services := none, deployments := none, statefulSets := none
    autoscalers := none, ingresses := none, routes := none, prometheus := none
    prometheusRule := none, metricsServiceMonitor := none
    repoServerServiceMonitor := none, serverMetricsServiceMonitor := none
    applicationSet := none, notificationsCtrl := none
    repoServerTLSSecret := none, redisTLSSecret := none }

/-- Concrete operation outcomes in which every operation of `Reconcile`
succeeds and the managed-by label removal setting is on. -/
def teardownOps : ReconcileOps :=
  { getOutcome := GetOutcome.ok, deleteClusterResourcesErr := none
    removeManagedByLabelOnDeletionSetting := true, removeManagedByLabelErr := none
    removeUnmanagedSourceNsErr := none, removeFinalizerErr := none
    addFinalizerErr := none, refetchErr := none, setManagedNamespacesErr := none
    setManagedSourceNamespacesErr := none, env := sampleEnv, stages := sampleOutcomes }

/-- `sampleCR` with a deletion timestamp. -/
def deletingCR : ArgoCDCR := { sampleCR with deletionTimestampSet := true }

/-- `teardownOps` with a failing cluster-scoped resource deletion. -/
def failingTeardownOps : ReconcileOps :=
  { teardownOps with deleteClusterResourcesErr := some (Err.base "boom") }

/-- A hook that always rejects the candidate object. -/
def failingHook : Hook := fun _ _ _ => some (Err.base "hook failed")

/-- A hook that accepts every candidate object. -/
def passingHook : Hook := fun _ _ _ => none

/-- A concrete ServiceMonitor request object. -/
def sampleSM : ServiceMonitor :=
  { meta := { name := "argocd-repo-server-metrics", nspace := "argocd",
              labels := [("app.kubernetes.io/name", "argocd-repo-server-metrics")],
              ownerRef := false }
    spec := { selectorMatchLabels := [("app.kubernetes.io/name", "argocd-repo-server")],
              endpointPorts := ["metrics"] } }

/-- The single container of the concrete rollouts Deployment below. -/
def sampleContainer : Container :=
  { name := "argo-rollouts", command := [], env := [],
    resources := ResourceRequirements.empty }

/-- A concrete rollouts controller Deployment whose existing cluster copy is
byte-identical to the desired one (the state after a first reconcile). -/
def sampleRolloutsDeployment : KDeployment :=
  { labels := [("app.kubernetes.io/name", "argo-rollouts"),
               ("app.kubernetes.io/part-of", "argo-rollouts"),
               ("app.kubernetes.io/component", "rollouts-controller")]
    selector := [("app.kubernetes.io/name", "argo-rollouts")]
    templateLabels := [("app.kubernetes.io/name", "argo-rollouts")]
    containers := [sampleContainer]
    serviceAccountName := "argo-rollouts"
    nodeSelector := [("kubernetes.io/os", "linux")]
    tolerations := []
    securityContext := some { runAsNonRoot := some true }
    ownerRef := true }

/-- The desired redis HA master Service of the drift counterexample. -/
def haMasterDesired : KService :=
  { meta := { name := "argocd-redis-ha", nspace := "argocd",
              labels := [("app.kubernetes.io/name", "argocd-redis-ha")], ownerRef := true }
    spec := { selector := [("app.kubernetes.io/name", "argocd-redis-ha")]
              ports := [{ name := "server", port := 6379, protocol := "TCP",
                          targetPort := "redis" },
                        { name := "sentinel", port := 26379, protocol := "TCP",
                          targetPort := "sentinel" }]
              publishNotReadyAddresses := false } }

/-- `haMasterDesired` after an external actor emptied its port list (drift
in a compared field). -/
def haMasterDrifted : KService :=
  { haMasterDesired with spec := { haMasterDesired.spec with ports := [] } }

/-- A concrete existing rollouts Service (ports and selector as the tail of
`reconcileRolloutsService` writes them, owner reference set). -/
def sampleRolloutsSvc : KService :=
  { meta := { name := "argocd-argo-rollouts", nspace := "argocd", labels := [],
              ownerRef := true }
    spec := { selector := [("app.kubernetes.io/name", "argocd-argo-rollouts")]
              ports := rolloutsMetricsPorts
              publishNotReadyAddresses := false } }

/-- A concrete Instance with the rollouts component enabled but no
ApplicationSet spec. -/
def rolloutsOnlyCR : ArgoCDCR :=
  { name := "argocd", nspace := "argocd", deletionTimestampSet := false
    finalizerPresent := true
    spec := { rollouts := some { image := "", version := "", env := [],
                                 extraCommandArgs := [] }
              applicationSet := none, notificationsEnabled := false } }

/-- A pipeline run in which every planned stage succeeds executes exactly
the planned stages in order and reports success. -/
theorem runPipeline_all_ok (plan : List (StageName × Option Err))
    (h : ∀ p ∈ plan, p.2 = none) :
    runPipeline plan = (none, plan.map Prod.fst) := by
  induction plan with
  | nil => rfl
  | cons hd tl ih =>
    obtain ⟨s, outcome⟩ := hd
    have h0 : outcome = none := h (s, outcome) (by simp)
    subst h0
    simp [runPipeline, ih (fun p hp => h p (by simp [hp]))]

/-- Every stage a pipeline run executes is a planned stage. -/
theorem runPipeline_trace_subset (plan : List (StageName × Option Err)) (s : StageName)
    (h : s ∈ (runPipeline plan).2) : s ∈ plan.map Prod.fst := by
  induction plan with
  | nil => simp [runPipeline] at h
  | cons hd tl ih =>
    obtain ⟨s', outcome⟩ := hd
    cases outcome with
    | some e =>
      simp [runPipeline] at h
      simp [h]
    | none =>
      simp [runPipeline] at h
      rcases h with h | h
      · simp [h]
      · simp [ih h]

/-- The full no-fatal-failure stage trace is the SSO and status stages
followed by the names of the planned fatal stages. -/
theorem fatalPlan_map_fst (cr : ArgoCDCR) (env : ClusterFlags) (o : StageOutcomes) :
    [StageName.sso, StageName.status] ++ (fatalPlan cr env o).map Prod.fst
      = fullPipelineTrace cr env := by
  cases hr : env.routeAPIAvailable <;> cases hp : env.prometheusAPIAvailable <;>
    cases ha : cr.spec.applicationSet <;> cases hn : cr.spec.notificationsEnabled <;>
      simp [fatalPlan, fullPipelineTrace, hr, hp, ha, hn]

/-- Claim C5: in the resource pipeline an error from the provider (SSO)
stage or the status-projection stage is only logged and the pipeline
continues through all subsequent stages, with the invocation still able to
report success (the result of `reconcileResources` does not depend on those
two outcomes, so the conclusion of the last conjunct holds for any SSO and
status outcomes, including errors); an error from the roles, role-bindings
or service-accounts stage is returned immediately and unchanged, with no
later stage executed. -/
theorem stage_failure_policy (cr : ArgoCDCR) (env : ClusterFlags) (o : StageOutcomes) :
    (∀ e, o.roles = some e →
        reconcileResources cr env o =
          (some e, [StageName.sso, StageName.status, StageName.roles])) ∧
    (∀ e, o.roles = none → o.roleBindings = some e →
        reconcileResources cr env o =
          (some e, [StageName.sso, StageName.status, StageName.roles,
            StageName.roleBindings])) ∧
    (∀ e, o.roles = none → o.roleBindings = none → o.serviceAccounts = some e →
        reconcileResources cr env o =
          (some e, [StageName.sso, StageName.status, StageName.roles,
            StageName.roleBindings, StageName.serviceAccounts])) ∧
    (o.noFatalErr → reconcileResources cr env o = (none, fullPipelineTrace cr env)) := by
  refine ⟨?_, ?_, ?_, ?_⟩
  · intro e h
    simp [reconcileResources, fatalPlan, runPipeline, h]
  · intro e h1 h2
    simp [reconcileResources, fatalPlan, runPipeline, h1, h2]
  · intro e h1 h2 h3
    simp [reconcileResources, fatalPlan, runPipeline, h1, h2, h3]
  · intro hall
    obtain ⟨h1, h2, h3, h4, h5, h6, h7, h8, h9, h10, h11, h12, h13, h14, h15, h16,
      h17, h18, h19, h20, h21⟩ := hall
    have hok : ∀ p ∈ fatalPlan cr env o, p.2 = none := by
      cases hr : env.routeAPIAvailable <;> cases hp : env.prometheusAPIAvailable <;>
        cases ha : cr.spec.applicationSet <;> cases hn : cr.spec.notificationsEnabled <;>
          simp [fatalPlan, hr, hp, ha, hn, List.forall_mem_cons,
            h1, h2, h3, h4, h5, h6, h7, h8, h9, h10, h11, h12, h13, h14, h15, h16,
            h17, h18, h19, h20, h21]
    rw [reconcileResources, runPipeline_all_ok _ hok]
    simpa using fatalPlan_map_fst cr env o

/-- Wrapping an error with a context message preserves it for `errors.Is`. -/
theorem errorsIs_wrap_self (msg : String) (e : Err) :
    errorsIs (Err.wrap msg e) e = true := by
  cases e <;> simp [errorsIs]

/-- Witness for C5 at a concrete input: with failing SSO and status stages
but no fatal failure, the invocation reports success after running the full
pipeline. -/
theorem stage_failure_policy_witness :
    reconcileResources sampleCR sampleEnv sampleOutcomes =
      (none, fullPipelineTrace sampleCR sampleEnv) :=
  (stage_failure_policy sampleCR sampleEnv sampleOutcomes).2.2.2
    (by simp [StageOutcomes.noFatalErr, sampleOutcomes])

/-- Claim C3: for an Instance with the deletion timestamp set and the
finalizer present, one reconcile invocation performs exactly the teardown
sequence in order (delete cluster-scoped resources; optionally strip the
managed-by label from namespaces; delete RBAC from managed source
namespaces; remove the finalizer; clear the deprecation-warning tracking
entry for the Instance's namespace) and returns success without running the
resource pipeline; with the deletion timestamp set but the finalizer absent
the invocation returns success having performed no teardown step and no
pipeline work. -/
theorem deletion_teardown_sequence (cr : ArgoCDCR) (ops : ReconcileOps)
    (tracker : List String) :
    (ops.getOutcome = GetOutcome.ok → cr.deletionTimestampSet = true →
     cr.finalizerPresent = true →
     ops.deleteClusterResourcesErr = none → ops.removeManagedByLabelErr = none →
     ops.removeUnmanagedSourceNsErr = none → ops.removeFinalizerErr = none →
     Reconcile cr ops tracker =
       ⟨none,
        [Step.getInstance, Step.deleteClusterResources]
          ++ (if ops.removeManagedByLabelOnDeletionSetting then
                [Step.removeManagedByLabelFromNamespaces] else [])
          ++ [Step.removeUnmanagedSourceNamespaceResources, Step.removeDeletionFinalizer]
          ++ (if cr.nspace ∈ tracker then [Step.clearDeprecationTracker] else []),
        false, tracker.filter (fun x => x ≠ cr.nspace)⟩ ∧
       ∀ s, Step.pipelineStage s ∉ (Reconcile cr ops tracker).steps) ∧
    (ops.getOutcome = GetOutcome.ok → cr.deletionTimestampSet = true →
     cr.finalizerPresent = false →
     Reconcile cr ops tracker = ⟨none, [Step.getInstance], false, tracker⟩) := by
  constructor
  · intro hget hdts hfin hdel hlabel hsrc hrem
    by_cases htr : cr.nspace ∈ tracker
    · cases hset : ops.removeManagedByLabelOnDeletionSetting <;>
        refine ⟨?_, ?_⟩ <;>
          simp [Reconcile, teardown, teardownTail, hget, hdts, hfin, hdel, hlabel,
            hsrc, hrem, hset, htr]
    · have hfe : List.filter (fun x => !decide (x = cr.nspace)) tracker = tracker := by
        apply List.filter_eq_self.mpr
        intro a ha
        simp only [Bool.not_eq_eq_eq_not, Bool.not_true, decide_eq_false_iff_not]
        intro h
        exact htr (h ▸ ha)
      cases hset : ops.removeManagedByLabelOnDeletionSetting <;>
        refine ⟨?_, ?_⟩ <;>
          simp [Reconcile, teardown, teardownTail, hget, hdts, hfin, hdel, hlabel,
            hsrc, hrem, hset, htr, hfe]
  · intro hget hdts hfin
    simp [Reconcile, hget, hdts, hfin]

/-- Witness for C3 at a concrete input: the exact teardown step sequence,
success, finalizer removed, tracker entry for the namespace cleared. -/
theorem deletion_teardown_sequence_witness :
    Reconcile deletingCR teardownOps ["argocd", "other"] =
      ⟨none,
       [Step.getInstance, Step.deleteClusterResources,
        Step.removeManagedByLabelFromNamespaces,
        Step.removeUnmanagedSourceNamespaceResources, Step.removeDeletionFinalizer,
        Step.clearDeprecationTracker],
       false, ["other"]⟩ := by
  rw [((deletion_teardown_sequence deletingCR teardownOps ["argocd", "other"]).1
    rfl rfl rfl rfl rfl rfl rfl).1]
  decide

/-- Claim C4: for an Instance being deleted, an error from any teardown step
(cluster-scoped resource deletion, namespace label removal, source-namespace
RBAC removal) is returned (the step's error wrapped with a context message
that preserves it as the cause, in the Go `errors.Is` sense) before the
finalizer-removal step executes, so the finalizer remains present and
teardown is retried on a later invocation. -/
theorem teardown_error_aborts_finalizer_removal (cr : ArgoCDCR) (ops : ReconcileOps)
    (tracker : List String) (e : Err) :
    ops.getOutcome = GetOutcome.ok → cr.deletionTimestampSet = true →
    cr.finalizerPresent = true →
    ((ops.deleteClusterResourcesErr = some e →
        (Reconcile cr ops tracker).result =
          some (Err.wrap "failed to delete ClusterResources" e) ∧
        errorsIs (Err.wrap "failed to delete ClusterResources" e) e = true ∧
        Step.removeDeletionFinalizer ∉ (Reconcile cr ops tracker).steps ∧
        (Reconcile cr ops tracker).finalizerPresent = true) ∧
     (ops.deleteClusterResourcesErr = none →
      ops.removeManagedByLabelOnDeletionSetting = true →
      ops.removeManagedByLabelErr = some e →
        (Reconcile cr ops tracker).result =
          some (Err.wrap ("failed to remove label from namespace[" ++ cr.nspace ++ "]") e) ∧
        errorsIs (Err.wrap ("failed to remove label from namespace[" ++ cr.nspace ++ "]") e)
          e = true ∧
        Step.removeDeletionFinalizer ∉ (Reconcile cr ops tracker).steps ∧
        (Reconcile cr ops tracker).finalizerPresent = true) ∧
     (ops.deleteClusterResourcesErr = none →
      (ops.removeManagedByLabelOnDeletionSetting = true →
        ops.removeManagedByLabelErr = none) →
      ops.removeUnmanagedSourceNsErr = some e →
        (Reconcile cr ops tracker).result =
          some (Err.wrap "failed to remove resources from sourceNamespaces" e) ∧
        errorsIs (Err.wrap "failed to remove resources from sourceNamespaces" e) e = true ∧
        Step.removeDeletionFinalizer ∉ (Reconcile cr ops tracker).steps ∧
        (Reconcile cr ops tracker).finalizerPresent = true)) := by
  intro hget hdts hfin
  refine ⟨?_, ?_, ?_⟩
  · intro hde
    simp [Reconcile, teardown, hget, hdts, hfin, hde, errorsIs_wrap_self]
  · intro hd0 hset hle
    simp [Reconcile, teardown, hget, hdts, hfin, hd0, hset, hle, errorsIs_wrap_self]
  · intro hd0 himp hsrc
    cases hset : ops.removeManagedByLabelOnDeletionSetting
    · simp [Reconcile, teardown, teardownTail, hget, hdts, hfin, hd0, hset, hsrc,
        errorsIs_wrap_self]
    · have hl := himp hset
      simp [Reconcile, teardown, teardownTail, hget, hdts, hfin, hd0, hset, hl, hsrc,
        errorsIs_wrap_self]

/-- Witness for C4 at a concrete input: a failing cluster-scoped resource
deletion aborts teardown before finalizer removal with the wrapped error,
and the finalizer stays present. -/
theorem teardown_error_aborts_finalizer_removal_witness :
    (Reconcile deletingCR failingTeardownOps []).result =
        some (Err.wrap "failed to delete ClusterResources" (Err.base "boom")) ∧
    Step.removeDeletionFinalizer ∉ (Reconcile deletingCR failingTeardownOps []).steps ∧
    (Reconcile deletingCR failingTeardownOps []).finalizerPresent = true := by
  have h := (teardown_error_aborts_finalizer_removal deletingCR failingTeardownOps []
    (Err.base "boom") rfl rfl rfl).1 rfl
  exact ⟨h.1, h.2.2.1, h.2.2.2⟩

/-- Claim C8: for an Instance whose spec simultaneously requests both
authentication providers, the provider (SSO) reconcile returns an error and
performs zero creations, updates or deletions of either provider's
resources, leaving the provider state untouched.  (The body of
`SSOReconciler.Reconcile` under src/ is an empty placeholder, so the
provider state machine is the spec-modelled `ssoReconcile`.) -/
theorem both_providers_error_no_mutation (req : SSORequest) (st : SSOState) :
    req.requestsProviderA = true → req.requestsProviderB = true →
    ssoReconcile req st =
      (some (Err.base "multiple SSO providers configured, only one is permitted"),
       [], st) := by
  intro hA hB
  simp [ssoReconcile, hA, hB]

/-- Witness for C8 at a concrete input. -/
theorem both_providers_error_no_mutation_witness :
    ssoReconcile { requestsProviderA := true, requestsProviderB := true }
        { providerAResourcesPresent := true, providerBResourcesPresent := false } =
      (some (Err.base "multiple SSO providers configured, only one is permitted"), [],
       { providerAResourcesPresent := true, providerBResourcesPresent := false }) :=
  both_providers_error_no_mutation _ _ rfl rfl

/-- When the redis Service reconciler finds an existing Service that differs
from the (owner-reference-adjusted) desired one in a compared field, the
update it issues carries exactly the desired values. -/
theorem reconcileService_drift_update (desired existing : KService)
    (ownerRefErr : Option Err)
    (h : existing ≠ { desired with meta := setOwnerRef desired.meta ownerRefErr }) :
    reconcileService desired none ownerRefErr (Lookup.found existing) none none =
      (none,
       [WriteOp.update { desired with meta := setOwnerRef desired.meta ownerRefErr }]) := by
  obtain ⟨em, es⟩ := existing
  obtain ⟨dm, ds⟩ := desired
  by_cases hm : em = setOwnerRef dm ownerRefErr <;> by_cases hs : es = ds <;>
    simp_all [reconcileService, UpdateIfChanged]

/-- Claim C9: in the Diff and Apply implementations a failure of
`SetControllerReference` is only logged and does not abort the call: when
the object is absent it is still created (exactly the built object, so
without the ownership back-reference), and when a differing object is found
it is still updated. -/
theorem owner_ref_failure_logged_not_fatal :
    (∀ (hooks : List Hook) (cr : ArgoCDCR) (req : ServiceMonitor) (e : Err) (ig : Bool),
       (applyReconcilerHook cr (GoVal.serviceMonitor req) "" hooks).1 = none →
       reconServiceMonitor hooks cr req (some e) Lookup.notFound none none ig =
         (none, [WriteOp.create req])) ∧
    (∀ (desired : KService) (e : Err),
       reconcileService desired none (some e) Lookup.notFound none none =
         (none, [WriteOp.create desired])) ∧
    (∀ (desired existing : KService) (e : Err), existing ≠ desired →
       reconcileService desired none (some e) (Lookup.found existing) none none =
         (none, [WriteOp.update desired])) := by
  refine ⟨?_, ?_, ?_⟩
  · intro hooks cr req e ig hh
    simp [reconServiceMonitor, RequestServiceMonitor, hh, setOwnerRef]
  · intro desired e
    simp [reconcileService, setOwnerRef]
  · intro desired existing e hne
    have h := reconcileService_drift_update desired existing (some e)
      (by simpa [setOwnerRef] using hne)
    simpa [setOwnerRef] using h

/-- Witness for C9 at a concrete input: the ServiceMonitor is created
without its ownership back-reference despite the owner-reference failure. -/
theorem owner_ref_failure_logged_not_fatal_witness :
    reconServiceMonitor [passingHook] sampleCR sampleSM (some (Err.base "owner ref failed"))
        Lookup.notFound none none false = (none, [WriteOp.create sampleSM]) :=
  owner_ref_failure_logged_not_fatal.1 [passingHook] sampleCR sampleSM
    (Err.base "owner ref failed") false rfl

/-- Claim C10: `getRolloutsControllerResources` reads the
resource-requirements override from `cr.Spec.ApplicationSet.Resources`
(never from the Rollouts spec) and dereferences the ApplicationSet pointer
without a nil guard, so building the rollouts container for an Instance with
Rollouts enabled but no ApplicationSet spec panics on a nil pointer instead
of returning the empty default requirements. -/
theorem rollouts_resources_from_applicationset :
    (∀ cr : ArgoCDCR, cr.spec.applicationSet = none →
        getRolloutsControllerResources cr = Except.error GoPanic.nilPointerDereference) ∧
    (∀ (cr : ArgoCDCR) (a : ApplicationSetSpec) (r : ResourceRequirements),
        cr.spec.applicationSet = some a → a.resources = some r →
        getRolloutsControllerResources cr = Except.ok r) ∧
    (∀ (cr : ArgoCDCR) (a : ApplicationSetSpec),
        cr.spec.applicationSet = some a → a.resources = none →
        getRolloutsControllerResources cr = Except.ok ResourceRequirements.empty) ∧
    (∀ (cr : ArgoCDCR) (ro : RolloutsSpec),
        cr.spec.rollouts = some ro → cr.spec.applicationSet = none →
        rolloutsContainer cr = Except.error GoPanic.nilPointerDereference) := by
  refine ⟨?_, ?_, ?_, ?_⟩
  · intro cr h
    simp [getRolloutsControllerResources, h]
  · intro cr a r h1 h2
    simp [getRolloutsControllerResources, h1, h2]
  · intro cr a h1 h2
    simp [getRolloutsControllerResources, h1, h2]
  · intro cr ro h1 h2
    simp [rolloutsContainer, getRolloutsControllerResources, h1, h2]

/-- Witness for C10 at a concrete input: Rollouts enabled, no ApplicationSet
spec, container construction panics. -/
theorem rollouts_resources_from_applicationset_witness :
    rolloutsContainer rolloutsOnlyCR = Except.error GoPanic.nilPointerDereference :=
  rollouts_resources_from_applicationset.2.2.2 rolloutsOnlyCR
    { image := "", version := "", env := [], extraCommandArgs := [] } rfl rfl

/-- The mixed-type first disjunct of the rollouts Deployment comparison
makes `deploymentsDifferent` report a difference for every existing
Deployment that has at least one container, whatever the desired one is. -/
theorem deploymentsDifferent_always_true (existing deploy : KDeployment)
    (c0 : Container) (rest : List Container) (h : existing.containers = c0 :: rest) :
    deploymentsDifferent existing deploy = some true := by
  simp [deploymentsDifferent, h, deepEqual]

/-- Claim C1 (evaluated at the failing input): the comparison
`!reflect.DeepEqual(existingSpec.Containers[0], podSpec.Containers)` in
`reconcileRolloutsDeployment` compares a single Container against the whole
desired container slice, values of distinct dynamic types that are never
deeply equal; so even when the existing rollouts Deployment is identical to
the desired one the function reports a difference and issues an Update,
violating the no-op idempotence the claim states. -/
theorem rollouts_deployment_always_updates :
    deploymentsDifferent sampleRolloutsDeployment sampleRolloutsDeployment = some true ∧
    reconcileRolloutsDeployment sampleRolloutsDeployment (some sampleRolloutsDeployment)
        none none none
      = some (none, [WriteOp.update sampleRolloutsDeployment]) := by
  exact ⟨rfl, rfl⟩

/-- Counterexample to claim C2 at a concrete input: with
`cr.Spec.Rollouts == nil` and the rollouts Service present,
`reconcileRolloutsService` deletes the Service but then re-creates it in the
same invocation, so a creation is issued and a rollouts Service is present
in the cluster afterwards, contradicting the claim. -/
theorem rollouts_disabled_service_recreated :
    reconcileRolloutsService sampleCR sampleRolloutsSvc (some sampleRolloutsSvc)
        none none none none
      = (none, [WriteOp.delete sampleRolloutsSvc, WriteOp.create sampleRolloutsSvc],
         true) := by
  decide

/-- Claim C2 as amended: with the rollouts toggle absent
`reconcileRolloutsService` deletes an existing rollouts Service but then
unconditionally re-creates it (and creates it even when none existed), so on
success a rollouts Service is present after the call; and with
`cr.Spec.ApplicationSet` nil the ApplicationSet controller stage is skipped
entirely by `reconcileResources` (no deletion of its resources). -/
theorem feature_toggle_absent_behavior :
    (∀ (cr : ArgoCDCR) (builtSvc ex : KService), cr.spec.rollouts = none →
       reconcileRolloutsService cr builtSvc (some ex) none none none none =
         (none, [WriteOp.delete ex, WriteOp.create (rolloutsServiceFinal cr ex)], true)) ∧
    (∀ (cr : ArgoCDCR) (builtSvc : KService), cr.spec.rollouts = none →
       reconcileRolloutsService cr builtSvc none none none none none =
         (none, [WriteOp.create (rolloutsServiceFinal cr builtSvc)], true)) ∧
    (∀ (cr : ArgoCDCR) (env : ClusterFlags) (o : StageOutcomes),
       cr.spec.applicationSet = none →
       StageName.applicationSet ∉ (reconcileResources cr env o).2) := by
  refine ⟨?_, ?_, ?_⟩
  · intro cr builtSvc ex h
    simp [reconcileRolloutsService, h, rolloutsServiceFinal]
  · intro cr builtSvc h
    simp [reconcileRolloutsService, h, rolloutsServiceFinal]
  · intro cr env o h hmem
    have hmem2 : StageName.applicationSet ∈ (runPipeline (fatalPlan cr env o)).2 := by
      simpa [reconcileResources] using hmem
    have hplan := runPipeline_trace_subset _ _ hmem2
    cases hr : env.routeAPIAvailable <;> cases hp : env.prometheusAPIAvailable <;>
      cases hn : cr.spec.notificationsEnabled <;>
        simp [fatalPlan, h, hr, hp, hn] at hplan

/-- Witness for the amended C2 at a concrete input: rollouts disabled and no
Service present, yet a Create is issued and the Service exists afterwards. -/
theorem feature_toggle_absent_behavior_witness :
    reconcileRolloutsService sampleCR sampleRolloutsSvc none none none none none =
      (none, [WriteOp.create (rolloutsServiceFinal sampleCR sampleRolloutsSvc)], true) :=
  feature_toggle_absent_behavior.2.1 sampleCR sampleRolloutsSvc rfl

/-- In `applyReconcilerHook` the hooks before the first failing one all run
in registration order, the failing hook's error is returned unchanged, and
no later hook is invoked (exactly `pre.length + 1` hooks run). -/
theorem applyReconcilerHook_first_error (cr : ArgoCDCR) (i : GoVal) (hint : String)
    (pre post : List Hook) (h : Hook) (e : Err)
    (hpre : ∀ g ∈ pre, g cr i hint = none) (herr : h cr i hint = some e) :
    applyReconcilerHook cr i hint (pre ++ h :: post) = (some e, pre.length + 1) := by
  induction pre with
  | nil => simp [applyReconcilerHook, herr]
  | cons g gs ih =>
    have hg : g cr i hint = none := hpre g (by simp)
    have ih2 := ih (fun g' hg' => hpre g' (by simp [hg']))
    simp [applyReconcilerHook, hg, ih2]

/-- Counterexample to claim C6 at a concrete input: the failing hook's error
does not reach the Diff and Apply caller unchanged — `reconServiceMonitor`
returns it wrapped in a context message (`errors.Wrapf`), a different error
value. -/
theorem hook_error_not_unchanged :
    reconServiceMonitor [failingHook] sampleCR sampleSM none Lookup.notFound
        none none false =
      (some (Err.wrap
        "reconcileServiceMonitor: failed to request ServiceMonitor argocd-repo-server-metrics in namespace argocd"
        (Err.base "hook failed")), []) ∧
    Err.wrap
        "reconcileServiceMonitor: failed to request ServiceMonitor argocd-repo-server-metrics in namespace argocd"
        (Err.base "hook failed")
      ≠ Err.base "hook failed" := by
  exact ⟨by decide, by decide⟩

/-- Claim C6 as amended: hook invocation calls the registered hooks in
registration order with (Instance, candidate object, hint); the first hook
error stops iteration so no later hook runs, the enclosing Diff and Apply
call performs no persistence of the desired object, and the hook's error
reaches the Diff and Apply caller wrapped in a context message that
preserves it as the cause (Go `errors.Is`), not as the identical value. -/
theorem hook_error_aborts_diff_apply :
    (∀ (cr : ArgoCDCR) (i : GoVal) (hint : String) (pre post : List Hook)
       (h : Hook) (e : Err),
       (∀ g ∈ pre, g cr i hint = none) → h cr i hint = some e →
       applyReconcilerHook cr i hint (pre ++ h :: post) = (some e, pre.length + 1)) ∧
    (∀ (hooks : List Hook) (cr : ArgoCDCR) (req : ServiceMonitor) (own : Option Err)
       (lk : Lookup ServiceMonitor) (c u : Option Err) (ig : Bool) (e : Err),
       (applyReconcilerHook cr (GoVal.serviceMonitor req) "" hooks).1 = some e →
       reconServiceMonitor hooks cr req own lk c u ig =
         (some (Err.wrap ("reconcileServiceMonitor: failed to request ServiceMonitor " ++
            req.meta.name ++ " in namespace " ++ req.meta.nspace) e), []) ∧
       errorsIs (Err.wrap ("reconcileServiceMonitor: failed to request ServiceMonitor " ++
            req.meta.name ++ " in namespace " ++ req.meta.nspace) e) e = true) := by
  refine ⟨?_, ?_⟩
  · intro cr i hint pre post h e hpre herr
    exact applyReconcilerHook_first_error cr i hint pre post h e hpre herr
  · intro hooks cr req own lk c u ig e hh
    refine ⟨?_, errorsIs_wrap_self _ _⟩
    simp [reconServiceMonitor, RequestServiceMonitor, hh]

/-- Witness for the amended C6 at a concrete input: of three registered
hooks the first two run in order, the second one's error aborts the third
hook, and the enclosing call issues no write. -/
theorem hook_error_aborts_diff_apply_witness :
    applyReconcilerHook sampleCR (GoVal.serviceMonitor sampleSM) ""
        [passingHook, failingHook, passingHook] = (some (Err.base "hook failed"), 2) ∧
    (reconServiceMonitor [passingHook, failingHook, passingHook] sampleCR sampleSM
        none Lookup.notFound none none false).2 = [] := by
  constructor
  · exact hook_error_aborts_diff_apply.1 sampleCR (GoVal.serviceMonitor sampleSM) ""
      [passingHook] [passingHook] failingHook (Err.base "hook failed")
      (by intro g hg; simp at hg; subst hg; rfl) rfl
  · have h := (hook_error_aborts_diff_apply.2 [passingHook, failingHook, passingHook]
      sampleCR sampleSM none Lookup.notFound none none false (Err.base "hook failed")
      rfl).1
    rw [h]

/-- Counterexample to claim C7 at a concrete input: an external actor
emptied the port list (a compared field) of the redis HA master Service, yet
the next `reconcileHAMasterService` call issues no write at all, leaving the
drifted Service as found instead of restoring the desired ports. -/
theorem ha_master_drift_not_converged :
    reconcileHAMasterService haMasterDesired none none (Lookup.found haMasterDrifted)
        none = (none, []) ∧
    haMasterDrifted ≠ haMasterDesired := by
  exact ⟨by decide, by decide⟩

/-- Claim C7 as amended: kinds reconciled through the generic
compare-and-update path converge external drift back to the desired values
(the redis Service update carries exactly the desired compared fields), but
the HA master Service, the rollouts Service, the rollouts ServiceAccount and
the rollouts notification Secret reconcilers are create-if-missing only:
when the object is found they return success with no write, leaving any
externally mutated compared field as found. -/
theorem drift_convergence_per_kind :
    (∀ (desired existing : KService) (o : Option Err),
       existing ≠ { desired with meta := setOwnerRef desired.meta o } →
       reconcileService desired none o (Lookup.found existing) none none =
         (none, [WriteOp.update { desired with meta := setOwnerRef desired.meta o }])) ∧
    (∀ (desired existing : KService) (ro c : Option Err),
       reconcileHAMasterService desired none ro (Lookup.found existing) c = (none, [])) ∧
    (∀ (cr : ArgoCDCR) (ros : RolloutsSpec) (builtSvc ex : KService)
       (f d ow c : Option Err), cr.spec.rollouts = some ros →
       reconcileRolloutsService cr builtSvc (some ex) f d ow c = (none, [], true)) ∧
    (∀ (builtSA ex : KServiceAccount) (ow c : Option Err),
       reconcileRolloutsServiceAccount builtSA (Lookup.found ex) ow c = (none, [])) ∧
    (∀ (cr : ArgoCDCR) (c : Option Err),
       reconcileRolloutsSecrets cr true c = (none, [])) := by
  refine ⟨?_, ?_, ?_, ?_, ?_⟩
  · intro desired existing o h
    exact reconcileService_drift_update desired existing o h
  · intro desired existing ro c
    simp [reconcileHAMasterService]
  · intro cr ros builtSvc ex f d ow c h
    simp [reconcileRolloutsService, h]
  · intro builtSA ex ow c
    simp [reconcileRolloutsServiceAccount]
  · intro cr c
    simp [reconcileRolloutsSecrets]

/-- Witness for the amended C7 at a concrete input: the redis Service
reconciler converges the emptied port list back to the desired value in one
update. -/
theorem drift_convergence_per_kind_witness :
    reconcileService haMasterDesired none none (Lookup.found haMasterDrifted) none none =
      (none, [WriteOp.update
        { haMasterDesired with meta := setOwnerRef haMasterDesired.meta none }]) :=
  drift_convergence_per_kind.1 haMasterDesired haMasterDrifted none (by decide)
